import Mathlib

/-!
Verification of the VFI solver in `DynamicProgramming/FirmDiscrete.ipynb`.

The notebook solves a firm's capital-investment problem with a non-convex
adjustment cost by discrete-choice value-function iteration.  Arrays are
embedded as functions `ℕ → ℚ` (resp. curried for 2-D/3-D arrays); numpy
float arithmetic is modelled over `ℚ`.  The VFI `while` loop is modelled
with explicit fuel bounded by the iteration ceiling, which the loop
condition `VFiter < VFmaxiter` makes sufficient.
-/

namespace FirmDiscrete

/-! ## The VFI driver loop

Source (cell 7 of `FirmDiscrete.ipynb`):

  VFdist = 7.0
  VFiter = 1
  while VFdist > VFtol and VFiter < VFmaxiter:
      ... compute new V ...
      VFdist = (np.absolute(V - TV)).max()
      VFiter += 1
  if VFiter < VFmaxiter:
      print('Value function converged after this many iterations:', VFiter)
  else:
      print('Value function did not converge')

Only the counter/distance dynamics matter for the convergence-report
claims, so the body is abstracted by the sequence `d : ℕ → ℚ`, where
`d n` is the sup-norm distance computed on the pass that starts with
`VFiter = n`.  -/

/-- One run of the `while` loop: state is `(VFiter, VFdist)`; the fuel
argument only makes the recursion structural and is chosen large enough
(`VFmaxiter`) that it is never exhausted before the loop condition fails. -/
def vfiGo (d : ℕ → ℚ) (tol : ℚ) (maxiter : ℕ) : ℕ → ℕ → ℚ → ℕ × ℚ
  | 0, iter, dist => (iter, dist)
  | fuel + 1, iter, dist =>
      if tol < dist ∧ iter < maxiter then
        vfiGo d tol maxiter fuel (iter + 1) (d iter)
      else
        (iter, dist)

/-- The loop as run by the driver: `VFiter` starts at 1, `VFdist` at 7.0. -/
def vfiRun (d : ℕ → ℚ) (tol : ℚ) (maxiter : ℕ) : ℕ × ℚ :=
  vfiGo d tol maxiter maxiter 1 7

/-- The two terminal reports the driver can print. -/
inductive VFIReport where
  | converged : VFIReport
  | notConverged : VFIReport
deriving DecidableEq

/-- The driver's report: `if VFiter < VFmaxiter: ... converged ... else: ... did not converge`. -/
def vfiReport (d : ℕ → ℚ) (tol : ℚ) (maxiter : ℕ) : VFIReport :=
  if (vfiRun d tol maxiter).1 < maxiter then VFIReport.converged else VFIReport.notConverged

/-! ## The Bellman operator (cells 5 and 7)

  EV = np.dot(Pi, V)
  EV_i[:, dens:] = EV[:, :sizek - dens]
  EV_i[:, :dens] = np.tile(np.reshape(EV[:, 0], (sizez, 1)), (1, dens))
  Vmat[i, j, m] = e[i, j, m] + betafirm * EV[i, m]     (create_Vmat)
  V_i = e_i + betafirm * EV_i
  V_a = Vmat.max(axis=2)
  V = np.maximum(V_a, V_i)
-/

/-- Matrix product `EV = np.dot(Pi, V)`: expected next-period value for each current
productivity row and each next-capital column. -/
def EV (sizez : ℕ) (Pi V : ℕ → ℕ → ℚ) : ℕ → ℕ → ℚ :=
  fun i m => ∑ l ∈ Finset.range sizez, Pi i l * V l m

/-- The two slice assignments into `EV_i`: columns `j ≥ dens` copy column
`j - dens` of `EV`, columns `j < dens` are the tiled column `EV[:, 0]`. -/
def EV_i (dens : ℕ) (ev : ℕ → ℕ → ℚ) : ℕ → ℕ → ℚ :=
  fun i j => if j < dens then ev i 0 else ev i (j - dens)

/-- Source function `create_Vmat` (cell 5): `Vmat[i, j, m] = e[i, j, m] + betafirm * EV[i, m]`. -/
def create_Vmat (e : ℕ → ℕ → ℕ → ℚ) (betafirm : ℚ) (ev : ℕ → ℕ → ℚ) :
    ℕ → ℕ → ℕ → ℚ :=
  fun i j m => e i j m + betafirm * ev i m

/-- Inactive value `V_i = e_i + betafirm * EV_i`. -/
def V_inactive (e_i : ℕ → ℕ → ℚ) (betafirm : ℚ) (evi : ℕ → ℕ → ℚ) :
    ℕ → ℕ → ℚ :=
  fun i j => e_i i j + betafirm * evi i j

/-- Maximum of `f 0, …, f n`. -/
def rowMaxAux (f : ℕ → ℚ) : ℕ → ℚ
  | 0 => f 0
  | n + 1 => max (rowMaxAux f n) (f (n + 1))

/-- Row maximum `Vmat.max(axis=2)` over the `sizek` entries of the last axis (numpy
raises on an empty axis, so this is meaningful only for `sizek ≥ 1`). -/
def V_active (sizek : ℕ) (Vmat : ℕ → ℕ → ℕ → ℚ) : ℕ → ℕ → ℚ :=
  fun i j => rowMaxAux (fun m => Vmat i j m) (sizek - 1)

/-- One pass of the loop body acting on the frozen `V`:
`V = np.maximum(V_a, V_i)` after the assignments listed above. -/
def bellman (sizez sizek dens : ℕ) (Pi : ℕ → ℕ → ℚ) (e_a : ℕ → ℕ → ℕ → ℚ)
    (e_i : ℕ → ℕ → ℚ) (betafirm : ℚ) (V : ℕ → ℕ → ℚ) : ℕ → ℕ → ℚ :=
  fun i j =>
    max (V_active sizek (create_Vmat e_a betafirm (EV sizez Pi V)) i j)
        (V_inactive e_i betafirm (EV_i dens (EV sizez Pi V)) i j)

/-! ## Policy post-processing (end of cell 7)

  for i in range(sizez):
      for j in range(sizek):
          if V_i[i, j] >= V_a[i, j]:
              PF_discrete[i, j] = 0
              PF_continuous[i, j] = np.max(j-dens, 0)
          elif V_a[i, j] > V_i[i, j]:
              PF_discrete[i, j] = 1
              PF_continuous[i, j] = PF_continuous[i, j]

In `np.max(j-dens, 0)` the second positional argument of `np.max` is
`axis`, not a second operand; numpy converts the integer `j - dens` to a
0-d array, on which axis 0 is accepted, and returns `j - dens` itself.
The call therefore performs no flooring at 0. -/

/-- The discrete policy assigned by the post-processing loop. -/
def PF_discrete (V_i V_a : ℕ → ℕ → ℚ) : ℕ → ℕ → ℚ :=
  fun i j => if V_a i j ≤ V_i i j then 0 else 1

/-- The continuous-choice index after the post-processing loop, starting
from the argmax array `PFc` stored by the last active-branch update. -/
def PF_continuous_post (dens : ℕ) (V_i V_a : ℕ → ℕ → ℚ)
    (PFc : ℕ → ℕ → ℤ) : ℕ → ℕ → ℤ :=
  fun i j => if V_a i j ≤ V_i i j then (j : ℤ) - (dens : ℤ) else PFc i j

/-! ## Capital grid (cell 1)

  krat = np.log(lb_k / ub_k)
  numb = np.ceil(krat / np.log(1 - delta))
  K[j] = ub_k * (1 - delta) ** (j / dens)   for j in range(int(numb * dens))
  kvec = K[::-1]

With `q` the positive real `dens`-th root of `1 - delta` one has
`(1 - delta) ** (j / dens) = q ^ j`; `q` enters the embedding as a
parameter constrained by `q ^ dens = 1 - delta`, since the root is
irrational for the notebook's parameters.  For `0 < lb_k / ub_k ≤ 1` and
`0 < 1 - delta < 1`, `int(np.ceil(np.log(lb_k/ub_k) / np.log(1 - delta)))`
is exactly the least natural `n` with `(1 - delta) ^ n ≤ lb_k / ub_k`. -/

/-- Grid `K[j] = ub_k * (1 - delta) ** (j / dens)`, written via the root `q`. -/
def K (ub_k q : ℚ) : ℕ → ℚ := fun j => ub_k * q ^ j

/-- Reversed grid `kvec = K[::-1]` with `sizek` entries: `kvec[j] = K[sizek - 1 - j]`. -/
def kvec (ub_k q : ℚ) (sizek : ℕ) : ℕ → ℚ :=
  fun j => K ub_k q (sizek - 1 - j)

/-- Characterisation of `numb`: `n` is the least natural number with
`(1 - delta) ^ n ≤ lb_k / ub_k` (the argument `r` is that ratio). -/
def gridNumbSpec (delta r : ℚ) (n : ℕ) : Prop :=
  (1 - delta) ^ n ≤ r ∧ ∀ m, m < n → r < (1 - delta) ^ m

/-! ## Helper lemmas -/

/-- If the loop condition fails at entry, the loop returns its state unchanged,
for every fuel value. -/
lemma vfiGo_exit (d : ℕ → ℚ) (tol : ℚ) (maxiter fuel iter : ℕ) (dist : ℚ)
    (h : ¬(tol < dist ∧ iter < maxiter)) :
    vfiGo d tol maxiter fuel iter dist = (iter, dist) := by
  cases fuel with
  | zero => rfl
  | succ n => simp [vfiGo, if_neg h]

/-- If some pass `n` at or after the current counter would produce a distance
at most the tolerance while leaving the counter strictly below the ceiling,
the loop exits with a final counter strictly below the ceiling. -/
lemma vfiGo_lt_of_le (d : ℕ → ℚ) (tol : ℚ) (maxiter : ℕ) :
    ∀ fuel iter dist n, maxiter - iter ≤ fuel → iter ≤ n → n + 1 < maxiter →
      d n ≤ tol → (vfiGo d tol maxiter fuel iter dist).1 < maxiter := by
  intro fuel
  induction fuel with
  | zero =>
      intro iter dist n hfuel hin hn _
      omega
  | succ f ih =>
      intro iter dist n hfuel hin hn hd
      by_cases hc : tol < dist ∧ iter < maxiter
      · rw [vfiGo, if_pos hc]
        rcases Nat.lt_or_ge iter n with hlt | hge
        · exact ih (iter + 1) (d iter) n (by omega) hlt hn hd
        · have hiter : iter = n := le_antisymm hin hge
          subst hiter
          rw [vfiGo_exit d tol maxiter f (iter + 1) (d iter)
            (by intro hco; exact absurd hco.1 (not_lt.mpr hd))]
          omega
      · rw [vfiGo_exit d tol maxiter (f + 1) iter dist hc]
        omega

/-- If the loop exits with a final counter strictly below the ceiling, then
either it never ran a pass (the initial distance already met the tolerance)
or some executed pass `n` produced `d n ≤ tol` with `n + 1 < maxiter`. -/
lemma vfiGo_le_of_lt (d : ℕ → ℚ) (tol : ℚ) (maxiter : ℕ) :
    ∀ fuel iter dist, maxiter - iter ≤ fuel →
      (vfiGo d tol maxiter fuel iter dist).1 < maxiter →
      dist ≤ tol ∨ ∃ n, iter ≤ n ∧ n + 1 < maxiter ∧ d n ≤ tol := by
  intro fuel
  induction fuel with
  | zero =>
      intro iter dist hfuel hlt
      rw [vfiGo_exit d tol maxiter 0 iter dist (by omega)] at hlt
      omega
  | succ f ih =>
      intro iter dist hfuel hlt
      by_cases hc : tol < dist ∧ iter < maxiter
      · rw [vfiGo, if_pos hc] at hlt
        rcases ih (iter + 1) (d iter) (by omega) hlt with hle | ⟨n, hin, hn, hd⟩
        · by_cases hm : iter + 1 < maxiter
          · exact Or.inr ⟨iter, le_refl iter, hm, hle⟩
          · rw [vfiGo_exit d tol maxiter f (iter + 1) (d iter) (by omega)] at hlt
            omega
        · exact Or.inr ⟨n, by omega, hn, hd⟩
      · rw [vfiGo_exit d tol maxiter (f + 1) iter dist hc] at hlt
        simp only [not_and, not_lt] at hc
        exact Or.inl (le_of_not_lt (fun h => absurd hlt (not_lt.mpr (hc h))))

/-- The final counter lies between the initial counter and the ceiling, and
the loop genuinely terminates: the loop condition fails at the final state. -/
lemma vfiGo_bounds (d : ℕ → ℚ) (tol : ℚ) (maxiter : ℕ) :
    ∀ fuel iter dist, maxiter - iter ≤ fuel →
      iter ≤ (vfiGo d tol maxiter fuel iter dist).1 ∧
      (iter ≤ maxiter → (vfiGo d tol maxiter fuel iter dist).1 ≤ maxiter) ∧
      ¬(tol < (vfiGo d tol maxiter fuel iter dist).2 ∧
        (vfiGo d tol maxiter fuel iter dist).1 < maxiter) := by
  intro fuel
  induction fuel with
  | zero =>
      intro iter dist hfuel
      rw [vfiGo_exit d tol maxiter 0 iter dist (by omega)]
      exact ⟨le_refl iter, fun h => h, by intro h; omega⟩
  | succ f ih =>
      intro iter dist hfuel
      by_cases hc : tol < dist ∧ iter < maxiter
      · rw [vfiGo, if_pos hc]
        obtain ⟨h1, h2, h3⟩ := ih (iter + 1) (d iter) (by omega)
        exact ⟨by omega, fun _ => h2 (by omega), h3⟩
      · rw [vfiGo_exit d tol maxiter (f + 1) iter dist hc]
        exact ⟨le_refl iter, fun h => h, hc⟩

lemma le_rowMaxAux (f : ℕ → ℚ) : ∀ n m, m ≤ n → f m ≤ rowMaxAux f n := by
  intro n
  induction n with
  | zero =>
      intro m hm
      rw [Nat.le_zero.mp hm]
      exact le_refl _
  | succ k ih =>
      intro m hm
      rcases Nat.lt_or_ge m (k + 1) with h | h
      · exact le_trans (ih m (by omega)) (le_max_left _ _)
      · have : m = k + 1 := by omega
        rw [this, rowMaxAux]
        exact le_max_right _ _

lemma rowMaxAux_mem (f : ℕ → ℚ) : ∀ n, ∃ m, m ≤ n ∧ rowMaxAux f n = f m := by
  intro n
  induction n with
  | zero => exact ⟨0, le_refl 0, rfl⟩
  | succ k ih =>
      obtain ⟨m, hm, he⟩ := ih
      rcases le_total (rowMaxAux f k) (f (k + 1)) with h | h
      · exact ⟨k + 1, le_refl _, max_eq_right h⟩
      · exact ⟨m, by omega, (max_eq_left h).trans he⟩

/-- C2 (counterexample): the claim "reports Converged iff the distance fell
strictly below the tolerance before the counter reached the ceiling" is false:
with tolerance 1 and every computed distance exactly equal to 1, the loop
exits (its condition tests `VFdist > VFtol`) and the driver reports
convergence although no distance was ever strictly below the tolerance. -/
theorem c2_counterexample :
    vfiReport (fun _ => 1) 1 3 = VFIReport.converged ∧
      ∀ n : ℕ, ¬((fun _ : ℕ => (1 : ℚ)) n < 1) := by
  constructor
  · decide
  · intro n
    exact lt_irrefl 1

/-- C2 (amended): the driver reports Converged iff some pass `n` with
`1 ≤ n ≤ maxiter - 2` produced a distance at most (not strictly below) the
tolerance; equivalently, iff the loop exits with the counter strictly below
the ceiling.  In particular a run whose distance first meets the tolerance
exactly on the last permitted pass (`n = maxiter - 1`, which pushes the
counter to the ceiling) is reported as non-converged, a distinct outcome. -/
theorem c2_convergence_report (d : ℕ → ℚ) (tol : ℚ) (maxiter : ℕ)
    (hm : 2 ≤ maxiter) (h7 : tol < 7) :
    vfiReport d tol maxiter = VFIReport.converged ↔
      ∃ n, 1 ≤ n ∧ n ≤ maxiter - 2 ∧ d n ≤ tol := by
  unfold vfiReport vfiRun
  constructor
  · intro h
    by_cases hlt : (vfiGo d tol maxiter maxiter 1 7).1 < maxiter
    · rcases vfiGo_le_of_lt d tol maxiter maxiter 1 7 (by omega) hlt with
        h0 | ⟨n, h1, hn, hd⟩
      · exact absurd h0 (not_le.mpr h7)
      · exact ⟨n, h1, by omega, hd⟩
    · rw [if_neg hlt] at h
      exact VFIReport.noConfusion h
  · intro ⟨n, h1, h2, hd⟩
    rw [if_pos (vfiGo_lt_of_le d tol maxiter maxiter 1 7 n (by omega) h1
      (by omega) hd)]

/-- Witness for `c2_convergence_report` at a concrete configuration. -/
theorem c2_convergence_report_witness :
    vfiReport (fun _ => 0) (1/2) 4 = VFIReport.converged ↔
      ∃ n, 1 ≤ n ∧ n ≤ 4 - 2 ∧ (fun _ : ℕ => (0 : ℚ)) n ≤ 1/2 :=
  c2_convergence_report (fun _ => 0) (1/2) 4 (by norm_num) (by norm_num)

/-- C9: for every iteration ceiling `maxiter ≥ 1` and any distance sequence,
the loop terminates with its condition genuinely false; the counter starts
at 1, never exceeds the ceiling, and since it increases by exactly 1 per
pass, at most `maxiter - 1` passes execute. -/
theorem c9_loop_terminates (d : ℕ → ℚ) (tol : ℚ) (maxiter : ℕ)
    (h : 1 ≤ maxiter) :
    1 ≤ (vfiRun d tol maxiter).1 ∧
    (vfiRun d tol maxiter).1 ≤ maxiter ∧
    (vfiRun d tol maxiter).1 - 1 ≤ maxiter - 1 ∧
    ¬(tol < (vfiRun d tol maxiter).2 ∧ (vfiRun d tol maxiter).1 < maxiter) := by
  unfold vfiRun
  obtain ⟨h1, h2, h3⟩ := vfiGo_bounds d tol maxiter maxiter 1 7 (by omega)
  have hub := h2 h
  exact ⟨h1, hub, by omega, h3⟩

/-- Witness for `c9_loop_terminates` at a concrete configuration whose
distances never meet the tolerance. -/
theorem c9_loop_terminates_witness :
    1 ≤ (vfiRun (fun _ => 9) 1 5).1 ∧
    (vfiRun (fun _ => 9) 1 5).1 ≤ 5 ∧
    (vfiRun (fun _ => 9) 1 5).1 - 1 ≤ 5 - 1 ∧
    ¬((1 : ℚ) < (vfiRun (fun _ => 9) 1 5).2 ∧ (vfiRun (fun _ => 9) 1 5).1 < 5) :=
  c9_loop_terminates (fun _ => 9) 1 5 (by norm_num)

/-- C4: the driver contains no finiteness check between the flow-payoff
construction and the value-function iteration.  A degenerate run whose
sup-norm distances stay astronomically large (the `ℚ` stand-in for the
`+inf` distances produced by non-finite payoffs) is consumed without any
error being surfaced: the driver merely iterates to the ceiling and reports
ordinary non-convergence. -/
theorem c4_nonfinite_not_surfaced :
    vfiReport (fun _ => 10 ^ 9) (1 / 1000000) 3000 = VFIReport.notConverged := by
  have h : ¬((vfiRun (fun _ => (10 ^ 9 : ℚ)) (1 / 1000000) 3000).1 < 3000) := by
    intro hlt
    rcases vfiGo_le_of_lt (fun _ => (10 ^ 9 : ℚ)) (1 / 1000000) 3000 3000 1 7
        (by omega) hlt with h0 | ⟨n, _, _, hd⟩
    · norm_num at h0
    · norm_num at hd
  simp only [vfiReport, if_neg h]

/-- C5: in every iteration the inactive-branch continuation satisfies
`EV_i[z, j] = EV[z, j - dens]` for `j ≥ dens` and `EV_i[z, j] = EV[z, 0]`
for `j < dens` (clamped at the capital floor, never an out-of-range read),
where `EV = Pi · V` over the iteration's frozen `V`. -/
theorem c5_inactive_shift_clamped (sizez sizek dens : ℕ) (Pi V : ℕ → ℕ → ℚ)
    (i j : ℕ) (hds : dens ≤ sizek) (hj : j < sizek) :
    (dens ≤ j → EV_i dens (EV sizez Pi V) i j = EV sizez Pi V i (j - dens)) ∧
    (j < dens → EV_i dens (EV sizez Pi V) i j = EV sizez Pi V i 0) := by
  constructor
  · intro h
    simp only [EV_i, if_neg (Nat.not_lt.mpr h)]
  · intro h
    simp only [EV_i, if_pos h]

/-- Witness for `c5_inactive_shift_clamped` at a concrete configuration. -/
theorem c5_inactive_shift_clamped_witness :
    (5 ≤ 6 → EV_i 5 (EV 1 (fun _ _ => 1) (fun _ _ => 2)) 0 6
        = EV 1 (fun _ _ => 1) (fun _ _ => 2) 0 (6 - 5)) ∧
    (6 < 5 → EV_i 5 (EV 1 (fun _ _ => 1) (fun _ _ => 2)) 0 6
        = EV 1 (fun _ _ => 1) (fun _ _ => 2) 0 0) :=
  c5_inactive_shift_clamped 1 7 5 (fun _ _ => 1) (fun _ _ => 2) 0 6
    (by norm_num) (by norm_num)

/-- C6: whenever `V_active[z,k]` exactly equals `V_inactive[z,k]`, the
post-processing loop's `V_i >= V_a` test succeeds, so the discrete policy
resolves to 0 (inactive): inactive wins every tie. -/
theorem c6_tie_goes_inactive (V_i V_a : ℕ → ℕ → ℚ) (i j : ℕ)
    (h : V_a i j = V_i i j) :
    PF_discrete V_i V_a i j = 0 := by
  simp only [PF_discrete, if_pos h.le]

/-- Witness for `c6_tie_goes_inactive` at a concrete tie. -/
theorem c6_tie_goes_inactive_witness :
    PF_discrete (fun _ _ => 2) (fun _ _ => 2) 0 0 = 0 :=
  c6_tie_goes_inactive (fun _ _ => 2) (fun _ _ => 2) 0 0 rfl

/-- C1: evaluation of the post-processing loop at a state with
`k_idx = 0 < dens = 5` where the inactive branch wins the comparison: the
stored continuous-choice index is `0 - 5 = -5`, not `max(0 - 5, 0) = 0`.
The flooring the claim asserts does not happen, because `np.max(j-dens, 0)`
passes `0` as the `axis` argument and returns `j - dens` unchanged. -/
theorem c1_inactive_index_not_floored :
    PF_discrete (fun _ _ => 0) (fun _ _ => 0) 0 0 = 0 ∧
    PF_continuous_post 5 (fun _ _ => 0) (fun _ _ => 0) (fun _ _ => 0) 0 0 = -5 ∧
    PF_continuous_post 5 (fun _ _ => 0) (fun _ _ => 0) (fun _ _ => 0) 0 0 ≠
      max ((0 : ℤ) - 5) 0 := by
  refine ⟨?_, ?_, ?_⟩ <;> decide

/-- C7: in every iteration `Vmat[z,k,k'] = e_active[z,k,k'] + beta * EV[z,k']`
with `EV = Pi · V` over the frozen `V`, and the updated value function is the
elementwise maximum of the maximum of `Vmat` over `k'` and the inactive value
`e_inactive + beta * EV_inactive`: it dominates both branches and is attained
by one of them. -/
theorem c7_bellman_update (sizez sizek dens : ℕ) (Pi : ℕ → ℕ → ℚ)
    (e_a : ℕ → ℕ → ℕ → ℚ) (e_i : ℕ → ℕ → ℚ) (betafirm : ℚ) (V : ℕ → ℕ → ℚ)
    (i j m : ℕ) (hk : 1 ≤ sizek) (hm : m < sizek) :
    create_Vmat e_a betafirm (EV sizez Pi V) i j m
        = e_a i j m + betafirm * ∑ l ∈ Finset.range sizez, Pi i l * V l m ∧
    V_inactive e_i betafirm (EV_i dens (EV sizez Pi V)) i j
        ≤ bellman sizez sizek dens Pi e_a e_i betafirm V i j ∧
    create_Vmat e_a betafirm (EV sizez Pi V) i j m
        ≤ bellman sizez sizek dens Pi e_a e_i betafirm V i j ∧
    (bellman sizez sizek dens Pi e_a e_i betafirm V i j
        = V_inactive e_i betafirm (EV_i dens (EV sizez Pi V)) i j ∨
     ∃ m', m' < sizek ∧
       bellman sizez sizek dens Pi e_a e_i betafirm V i j
         = create_Vmat e_a betafirm (EV sizez Pi V) i j m') := by
  refine ⟨rfl, le_max_right _ _, ?_, ?_⟩
  · exact le_trans
      (le_rowMaxAux (fun m => create_Vmat e_a betafirm (EV sizez Pi V) i j m)
        (sizek - 1) m (by omega))
      (le_max_left _ _)
  · rcases le_total (V_active sizek (create_Vmat e_a betafirm (EV sizez Pi V)) i j)
        (V_inactive e_i betafirm (EV_i dens (EV sizez Pi V)) i j) with h | h
    · exact Or.inl (max_eq_right h)
    · obtain ⟨m', hm', he⟩ := rowMaxAux_mem
        (fun m => create_Vmat e_a betafirm (EV sizez Pi V) i j m) (sizek - 1)
      exact Or.inr ⟨m', by omega, (max_eq_left h).trans he⟩

/-- Witness for `c7_bellman_update` at a concrete configuration. -/
theorem c7_bellman_update_witness :
    create_Vmat (fun _ _ _ => 1) (9/10) (EV 1 (fun _ _ => 1/2) (fun _ _ => 4)) 0 0 1
        = (fun _ _ _ => (1 : ℚ)) 0 0 1
          + (9/10) * ∑ l ∈ Finset.range 1, (fun _ _ => (1/2 : ℚ)) 0 l * (fun _ _ => (4 : ℚ)) l 1 ∧
    V_inactive (fun _ _ => 1) (9/10) (EV_i 1 (EV 1 (fun _ _ => 1/2) (fun _ _ => 4))) 0 0
        ≤ bellman 1 2 1 (fun _ _ => 1/2) (fun _ _ _ => 1) (fun _ _ => 1) (9/10) (fun _ _ => 4) 0 0 ∧
    create_Vmat (fun _ _ _ => 1) (9/10) (EV 1 (fun _ _ => 1/2) (fun _ _ => 4)) 0 0 1
        ≤ bellman 1 2 1 (fun _ _ => 1/2) (fun _ _ _ => 1) (fun _ _ => 1) (9/10) (fun _ _ => 4) 0 0 ∧
    (bellman 1 2 1 (fun _ _ => 1/2) (fun _ _ _ => 1) (fun _ _ => 1) (9/10) (fun _ _ => 4) 0 0
        = V_inactive (fun _ _ => 1) (9/10) (EV_i 1 (EV 1 (fun _ _ => 1/2) (fun _ _ => 4))) 0 0 ∨
     ∃ m', m' < 2 ∧
       bellman 1 2 1 (fun _ _ => 1/2) (fun _ _ _ => 1) (fun _ _ => 1) (9/10) (fun _ _ => 4) 0 0
         = create_Vmat (fun _ _ _ => 1) (9/10) (EV 1 (fun _ _ => 1/2) (fun _ _ => 4)) 0 0 m') :=
  c7_bellman_update 1 2 1 (fun _ _ => 1/2) (fun _ _ _ => 1) (fun _ _ => 1)
    (9/10) (fun _ _ => 4) 0 0 1 (by norm_num) (by norm_num)

/-- C8: for every valid configuration the capital grid is strictly
increasing (hence duplicate-free), and a downward shift of `dens` indices
represents exactly one period of depreciation:
`kvec[j - dens] = (1 - delta) * kvec[j]` for `j ≥ dens`. -/
theorem c8_grid_monotone_shift (delta q lb_k ub_k : ℚ) (dens sizek : ℕ)
    (hdens : 1 ≤ dens) (hd0 : 0 < delta) (hd1 : delta < 1)
    (hq0 : 0 < q) (hqd : q ^ dens = 1 - delta)
    (hlb : 0 < lb_k) (hlt : lb_k < ub_k) :
    (∀ a b, a < b → b < sizek → kvec ub_k q sizek a < kvec ub_k q sizek b) ∧
    (∀ j, dens ≤ j → j < sizek →
      kvec ub_k q sizek (j - dens) = (1 - delta) * kvec ub_k q sizek j) := by
  have hub : 0 < ub_k := lt_trans hlb hlt
  have hq1 : q < 1 := by
    by_contra hc
    push_neg at hc
    have h1 : 1 ≤ q ^ dens := (one_le_pow_iff_of_nonneg hq0.le (by omega)).mpr hc
    rw [hqd] at h1
    linarith
  constructor
  · intro a b hab hb
    have he : sizek - 1 - b < sizek - 1 - a := by omega
    simp only [kvec, K]
    exact mul_lt_mul_of_pos_left (pow_lt_pow_right_of_lt_one₀ hq0 hq1 he) hub
  · intro j hdj hj
    have he : sizek - 1 - (j - dens) = (sizek - 1 - j) + dens := by omega
    simp only [kvec, K, he, pow_add, hqd]
    ring

/-- Witness for `c8_grid_monotone_shift` at a concrete configuration
(`delta = 3/4`, `q = 1/2`, `dens = 2`, four grid points). -/
theorem c8_grid_monotone_shift_witness :
    (∀ a b, a < b → b < 4 → kvec 1 (1/2) 4 a < kvec 1 (1/2) 4 b) ∧
    (∀ j, 2 ≤ j → j < 4 →
      kvec 1 (1/2) 4 (j - 2) = (1 - 3/4) * kvec 1 (1/2) 4 j) :=
  c8_grid_monotone_shift (3/4) (1/2) (1/5) 1 2 4 (by norm_num) (by norm_num)
    (by norm_num) (by norm_num) (by norm_num) (by norm_num) (by norm_num)

/-- C10: every grid entry is strictly positive and at most `kbar`, and the
largest entry equals `kbar` exactly; moreover the smallest entry can lie
strictly below the configured `lb_k` (witnessed by a concrete configuration
together with the ceiling characterisation of `numb`), so `lb_k` itself is
not guaranteed to be a grid point. -/
theorem c10_grid_bounds (delta q ub_k : ℚ) (dens sizek : ℕ)
    (hdens : 1 ≤ dens) (hd0 : 0 < delta) (hd1 : delta < 1)
    (hq0 : 0 < q) (hqd : q ^ dens = 1 - delta) (hub : 0 < ub_k)
    (hk : 1 ≤ sizek) :
    (∀ j, j < sizek → 0 < kvec ub_k q sizek j ∧ kvec ub_k q sizek j ≤ ub_k) ∧
    kvec ub_k q sizek (sizek - 1) = ub_k ∧
    (∃ (delta' q' lb' ub' : ℚ) (dens' numb' : ℕ),
        0 < delta' ∧ delta' < 1 ∧ 0 < q' ∧ q' ^ dens' = 1 - delta' ∧
        0 < lb' ∧ lb' < ub' ∧ gridNumbSpec delta' (lb' / ub') numb' ∧
        kvec ub' q' (numb' * dens') 0 < lb') := by
  have hq1 : q ≤ 1 := by
    by_contra hc
    push_neg at hc
    have h1 : 1 ≤ q ^ dens := (one_le_pow_iff_of_nonneg hq0.le (by omega)).mpr hc.le
    rw [hqd] at h1
    linarith
  refine ⟨?_, ?_, ?_⟩
  · intro j hj
    constructor
    · exact mul_pos hub (pow_pos hq0 _)
    · simp only [kvec, K]
      calc ub_k * q ^ (sizek - 1 - j)
          ≤ ub_k * 1 := mul_le_mul_of_nonneg_left (pow_le_one₀ hq0.le hq1) hub.le
        _ = ub_k := mul_one _
  · simp only [kvec, K, Nat.sub_self, pow_zero, mul_one]
  · refine ⟨3/4, 1/2, 1/5, 1, 2, 2, by norm_num, by norm_num, by norm_num,
      by norm_num, by norm_num, by norm_num, ⟨by norm_num, ?_⟩, ?_⟩
    · intro m hm
      interval_cases m <;> norm_num
    · norm_num [kvec, K]

/-- Witness for `c10_grid_bounds` at a concrete configuration. -/
theorem c10_grid_bounds_witness :
    (∀ j, j < 4 → 0 < kvec 1 (1/2) 4 j ∧ kvec 1 (1/2) 4 j ≤ 1) ∧
    kvec 1 (1/2) 4 (4 - 1) = 1 ∧
    (∃ (delta' q' lb' ub' : ℚ) (dens' numb' : ℕ),
        0 < delta' ∧ delta' < 1 ∧ 0 < q' ∧ q' ^ dens' = 1 - delta' ∧
        0 < lb' ∧ lb' < ub' ∧ gridNumbSpec delta' (lb' / ub') numb' ∧
        kvec ub' q' (numb' * dens') 0 < lb') :=
  c10_grid_bounds (3/4) (1/2) 1 2 4 (by norm_num) (by norm_num) (by norm_num)
    (by norm_num) (by norm_num) (by norm_num) (by norm_num)

/-- C3: no configuration validation exists.  With `kbar = lb_k = 0.001` and
the notebook's `delta = 0.154`, the ratio `lb_k / ub_k` equals 1 and the
ceiling computation yields `numb = 0` — uniquely — hence
`sizek = numb * dens = 0`: the builder silently produces an empty capital
grid and empty payoff tensors instead of raising an error before grid
construction. -/
theorem c3_no_rejection_empty_grid :
    gridNumbSpec (77/500) ((1/1000) / (1/1000)) 0 ∧
    (∀ n, gridNumbSpec (77/500) ((1/1000) / (1/1000)) n → n = 0) := by
  constructor
  · exact ⟨by norm_num, fun m hm => absurd hm (Nat.not_lt_zero m)⟩
  · intro n hn
    by_contra hne
    have h0 := hn.2 0 (by omega)
    norm_num at h0

end FirmDiscrete
